import Mathlib

/-!
Shallow embedding of the report-generation engine of `timesheet.py`.

Modelling conventions:
* Python floats are modelled as rationals (`ℚ`); Python's binary floating
  point is abstracted away.
* Python exceptions are modelled with `Except String`; an uncaught exception
  in `report` is an `Except.error`, so no (partial) report is produced.
* Spreadsheet rows are `List String`; row truthiness of a cell is
  non-emptiness of the string, as in Python.
* CPython's `set` iteration order is unspecified (hash based); it is modelled
  by `setList`, a first-occurrence deduplication.  For `work_days` this is
  harmless because the source sorts the list afterwards, so the result is the
  unique ascending enumeration of the set; for `proj_classes` the source
  applies no sort, and `setList` fixes one concrete enumeration order.
-/

namespace Timesheet

/-- Calendar date, as produced by `datetime.date.fromisoformat` in
`WorkEvent.__init__`. -/
structure Date where
  year : ℕ
  month : ℕ
  day : ℕ
deriving DecidableEq

/-- Model of `datetime.date` comparison: lexicographic on
(year, month, day).  Used by `work_days.sort()`. -/
def dateLe (a b : Date) : Bool :=
  decide (a.year < b.year ∨ (a.year = b.year ∧
    (a.month < b.month ∨ (a.month = b.month ∧ a.day ≤ b.day))))

/-- Proposition form of `dateLe`. -/
def dateLeP (a b : Date) : Prop := dateLe a b = true

instance : DecidableRel dateLeP := fun a b => instDecidableEqBool (dateLe a b) true

/-- Gregorian leap-year rule, as used by `datetime.date`. -/
def isLeapYear (y : ℕ) : Bool :=
  (y % 4 == 0 && y % 100 != 0) || y % 400 == 0

/-- Number of days in a month, as enforced by `datetime.date`. -/
def daysInMonth (y m : ℕ) : ℕ :=
  if m = 2 then (if isLeapYear y then 29 else 28)
  else if m = 4 ∨ m = 6 ∨ m = 9 ∨ m = 11 then 30
  else 31

/-- Numeric value of a decimal digit character. -/
def digitVal (c : Char) : ℕ := c.toNat - 48

/-- Value of a list of decimal digit characters, most significant first. -/
def digitsToNat (cs : List Char) : ℕ := cs.foldl (fun n c => 10 * n + digitVal c) 0

/-- A valid Gregorian calendar date with year at least 1, the invariant
`datetime.date` maintains. -/
def validDate (d : Date) : Prop :=
  1 ≤ d.year ∧ 1 ≤ d.month ∧ d.month ≤ 12 ∧ 1 ≤ d.day ∧ d.day ≤ daysInMonth d.year d.month

instance (d : Date) : Decidable (validDate d) := by unfold validDate; infer_instance

/-- Model of `datetime.date.fromisoformat`: accepts exactly `YYYY-MM-DD`
denoting a valid Gregorian calendar date (year at least 1), returning `none`
where CPython raises `ValueError`. -/
def parseDate (s : String) : Option Date :=
  match s.toList with
  | [y1, y2, y3, y4, c1, m1, m2, c2, d1, d2] =>
    if ([y1, y2, y3, y4, m1, m2, d1, d2].all Char.isDigit) = true ∧ c1 = '-' ∧ c2 = '-'
        ∧ validDate ⟨digitsToNat [y1, y2, y3, y4], digitsToNat [m1, m2], digitsToNat [d1, d2]⟩ then
      some ⟨digitsToNat [y1, y2, y3, y4], digitsToNat [m1, m2], digitsToNat [d1, d2]⟩
    else none
  | _ => none

/-- Strip leading and trailing whitespace characters. -/
def stripChars (cs : List Char) : List Char :=
  ((cs.dropWhile Char.isWhitespace).reverse.dropWhile Char.isWhitespace).reverse

/-- Parse the exponent part of a float literal: an optional sign followed by
at least one digit. -/
def parseExp (cs : List Char) : Option ℤ :=
  let (sgn, ds) : ℤ × List Char :=
    match cs with
    | '+' :: r => (1, r)
    | '-' :: r => (-1, r)
    | r => (1, r)
  if ds ≠ [] ∧ (ds.all Char.isDigit) = true then some (sgn * digitsToNat ds) else none

/-- Model of Python's `float(str)` on decimal literals: optional surrounding
whitespace, optional sign, an integer part and/or fractional part with at
least one digit, and an optional decimal exponent.  (The special strings
`inf`/`nan` and digit-group underscores are outside this model.)  Returns
`none` where CPython raises `ValueError`. -/
def parseFloat (s : String) : Option ℚ :=
  let cs := stripChars s.toList
  let (sgn, cs1) : ℚ × List Char :=
    match cs with
    | '+' :: r => (1, r)
    | '-' :: r => (-1, r)
    | r => (1, r)
  let (mant, rest) := cs1.span (fun c => decide (c ≠ 'e' ∧ c ≠ 'E'))
  let (ip, rest2) := mant.span (fun c => decide (c ≠ '.'))
  let fp : List Char := match rest2 with
    | [] => []
    | _ :: r => r
  if (ip.all Char.isDigit) = true ∧ (fp.all Char.isDigit) = true ∧ (ip ≠ [] ∨ fp ≠ []) then
    let mval : ℚ := (digitsToNat (ip ++ fp) : ℚ) / (10 : ℚ) ^ fp.length
    match rest with
    | [] => some (sgn * mval)
    | _ :: er =>
      match parseExp er with
      | some e => some (sgn * mval * (10 : ℚ) ^ e)
      | none => none
  else none

/-- Model of `is_complete`: the row has at least 6 cells and none of the
first 6 is the empty string (Python truthiness of `all(row[:6])`). -/
def is_complete (row : List String) : Bool :=
  decide (6 ≤ row.length) && (row.take 6).all (fun s => decide (s ≠ ""))

/-- Bag of data for a single clock-in/clock-out event (`WorkEvent`). -/
structure WorkEvent where
  date : Date
  duration : ℚ
  project : String
  cls : String
deriving DecidableEq

/-- Model of `WorkEvent.__init__`: parses cell 0 as an ISO date and cell 3 as
a float, keeping cells 4 and 5 as the project and class labels.  A failed
parse is the propagated `ValueError` of the source. -/
def mkWorkEventE (row : List String) : Except String WorkEvent :=
  match parseDate (row.getD 0 "") with
  | none => Except.error "ValueError: invalid isoformat string"
  | some d =>
    match parseFloat (row.getD 3 "") with
    | none => Except.error "ValueError: could not convert string to float"
    | some q => Except.ok ⟨d, q, row.getD 4 "", row.getD 5 ""⟩

/-- Pay period value (`PayPeriod.__init__` keeps year, month and period). -/
structure PayPeriod where
  year : ℕ
  month : ℕ
  period : ℕ
deriving DecidableEq

/-- Model of `PayPeriod.__contains__`: exact year/month match, then
day ≤ 15 when `period == 1`, otherwise day > 15. -/
def inPeriod (pp : PayPeriod) (e : WorkEvent) : Bool :=
  if e.date.year ≠ pp.year ∨ e.date.month ≠ pp.month then false
  else if pp.period = 1 then decide (e.date.day ≤ 15)
  else decide (15 < e.date.day)

/-- English month names, as produced by `strftime` format `%B`. -/
def monthName : ℕ → String
  | 1 => "January"
  | 2 => "February"
  | 3 => "March"
  | 4 => "April"
  | 5 => "May"
  | 6 => "June"
  | 7 => "July"
  | 8 => "August"
  | 9 => "September"
  | 10 => "October"
  | 11 => "November"
  | 12 => "December"
  | _ => ""

/-- Model of `PayPeriod.fancy_repr`, e.g. `February 2020 pay period 2`. -/
def fancy_repr (pp : PayPeriod) : String :=
  monthName pp.month ++ " " ++ toString pp.year ++ " pay period " ++ toString pp.period

/-- The reserved project label for holidays (`HOLIDAY_PROJECT`). -/
def HOLIDAY_PROJECT : String := "Holiday"

/-- Model of `_split_events`: first component the ordinary work events,
second component the events whose project label is the holiday marker. -/
def splitEvents (work_events : List WorkEvent) : List WorkEvent × List WorkEvent :=
  (work_events.filter (fun e => decide (e.project ≠ HOLIDAY_PROJECT)),
   work_events.filter (fun e => decide (e.project = HOLIDAY_PROJECT)))

/-- Left-pad a numeral to two digits, as in `strftime` `%m`/`%d`. -/
def pad2 (n : ℕ) : String := if n < 10 then "0" ++ toString n else toString n

/-- Model of the `%m/%d/%Y` date format (`%Y` unpadded, as on glibc). -/
def fmtDate (d : Date) : String :=
  pad2 d.month ++ "/" ++ pad2 d.day ++ "/" ++ toString d.year

/-- Round a rational to the nearest integer, ties to even: the rounding used
by Python's fixed-point string formatting. -/
def roundHalfEven (q : ℚ) : ℤ :=
  let f := ⌊q⌋
  if q - f < 1 / 2 then f
  else if (1 : ℚ) / 2 < q - f then f + 1
  else if f % 2 = 0 then f else f + 1

/-- Left-pad a string with zeros to length `k`. -/
def padZeros (k : ℕ) (s : String) : String :=
  if s.length < k then String.mk (List.replicate (k - s.length) '0') ++ s else s

/-- Model of Python's fixed-point format `{:.kf}` on a rational value. -/
def fmtFixed (k : ℕ) (q : ℚ) : String :=
  let n := roundHalfEven (q * (10 : ℚ) ^ k)
  let a := n.natAbs
  (if q < 0 then "-" else "") ++ toString (a / 10 ^ k) ++ "." ++ padZeros k (toString (a % 10 ^ k))

/-- The `{:.2f}` format of the source. -/
def fmt2 : ℚ → String := fmtFixed 2

/-- The `{:.1f}` format of the source. -/
def fmt1 : ℚ → String := fmtFixed 1

/-- Sum of the durations of a list of events (`sum(event.duration ...)`). -/
def totalDur (work_events : List WorkEvent) : ℚ :=
  (work_events.map (fun e => e.duration)).sum

/-- The numeric per-day total of `_daily_report`. -/
def daily_hours (d : Date) (work_events : List WorkEvent) : ℚ :=
  totalDur (work_events.filter (fun e => decide (e.date = d)))

/-- Model of `_daily_report`: one daily table row. -/
def _daily_report (d : Date) (work_events : List WorkEvent) : List String :=
  [fmtDate d, fmt2 (daily_hours d work_events)]

/-- The numeric per-(project, class) total of `_project_report`. -/
def proj_class_hours (project cls : String) (work_events : List WorkEvent) : ℚ :=
  totalDur (work_events.filter (fun e => decide (e.project = project ∧ e.cls = cls)))

/-- Model of `_project_report`: one project table row.  When the total over
all work events is zero the source's `proj_class_hours / total_hours` raises
`ZeroDivisionError`, modelled as an `Except.error`. -/
def _project_report (project cls : String) (work_events : List WorkEvent) :
    Except String (List String) :=
  let total_hours := totalDur work_events
  let h := proj_class_hours project cls work_events
  if total_hours = 0 then Except.error "ZeroDivisionError: float division by zero"
  else Except.ok [project, cls, fmt2 h, fmt1 (h / total_hours * 100)]

/-- Model of `_holiday_report`: the optional holiday block. -/
def _holiday_report (holidays : List WorkEvent) : List (List String) :=
  if holidays.isEmpty then []
  else [["Paid holidays"]] ++ holidays.map (fun e => [fmtDate e.date, e.cls]) ++ [[]]

/-- Model of `_pto_report`: the optional PTO note (PTO hours are a
non-negative integer per the CLI contract, so Python's `not hours` is
`hours = 0`). -/
def _pto_report (hours : ℕ) : List (List String) :=
  if hours = 0 then []
  else [[toString hours ++ " hours of PTO used this pay period"], []]

/-- Model of `list(set(...))`: deduplication keeping first occurrences.
CPython's actual set iteration order is unspecified; see the module
docstring. -/
def setList {α : Type} [DecidableEq α] : List α → List α
  | [] => []
  | a :: l => a :: (setList l).filter (fun b => decide (b ≠ a))

/-- The sorted distinct work days of `report` (`list(set(...))` then
`.sort()`; the sort makes the set order immaterial here). -/
def workDaysOf (work_events : List WorkEvent) : List Date :=
  List.insertionSort dateLeP (setList (work_events.map (fun e => e.date)))

/-- The distinct (project, class) pairs of `report`
(`list(set(...))`, with no sort applied in the source). -/
def projClassesOf (work_events : List WorkEvent) : List (String × String) :=
  setList (work_events.map (fun e => (e.project, e.cls)))

/-- Effectful map modelling a Python list comprehension: the first raised
exception aborts the whole comprehension. -/
def mapME {α β : Type} (f : α → Except String β) : List α → Except String (List β)
  | [] => Except.ok []
  | a :: l =>
    match f a with
    | Except.error e => Except.error e
    | Except.ok b =>
      match mapME f l with
      | Except.error e => Except.error e
      | Except.ok bs => Except.ok (b :: bs)

/-- Whether an `Except` value is a success. -/
def okB {ε α : Type} : Except ε α → Bool
  | Except.ok _ => true
  | Except.error _ => false

/-- The project table of `report`: one `_project_report` row per distinct
(project, class) pair. -/
def projectReportsOf (work_events : List WorkEvent) : Except String (List (List String)) :=
  mapME (fun pc => _project_report pc.1 pc.2 work_events) (projClassesOf work_events)

/-- The grand total of `report`: worked hours plus PTO plus the fixed
8-hour credit per holiday event. -/
def total_hoursOf (work_events holidays : List WorkEvent) (pto : ℕ) : ℚ :=
  totalDur work_events + pto + 8 * holidays.length

/-- The header block of `report`. -/
def headers (name : String) (pp : PayPeriod) : List (List String) :=
  [["Timesheet for " ++ name], [fancy_repr pp], []]

/-- The part of `report` that follows event construction: period filtering,
holiday split, the two aggregation tables, optional blocks and summary line,
assembled in the source's order. -/
def assembledReport (name : String) (pp : PayPeriod) (events : List WorkEvent) (pto : ℕ) :
    Except String (List (List String)) :=
  let admitted := events.filter (inPeriod pp)
  let work_events := (splitEvents admitted).1
  let holidays := (splitEvents admitted).2
  match projectReportsOf work_events with
  | Except.error e => Except.error e
  | Except.ok project_reports =>
    Except.ok (headers name pp
      ++ [["Date", "Hours"]]
      ++ (workDaysOf work_events).map (fun d => _daily_report d work_events)
      ++ [[]]
      ++ [["Project", "Class", "Hours", "% of total worked hours"]]
      ++ project_reports
      ++ [[]]
      ++ _holiday_report holidays
      ++ _pto_report pto
      ++ [["Total: " ++ fmt2 (total_hoursOf work_events holidays pto) ++ " hours"]])

/-- Model of `report`: validate rows, construct events (first `ValueError`
aborts the run), then assemble the report. -/
def report (name : String) (pp : PayPeriod) (raw_data : List (List String)) (pto : ℕ) :
    Except String (List (List String)) :=
  match mapME mkWorkEventE (raw_data.filter is_complete) with
  | Except.error e => Except.error e
  | Except.ok events => assembledReport name pp events pto

/-- Lexicographic order on strings by character code (the ordering a
"sorted by label" contract refers to). -/
def strLt : List Char → List Char → Bool
  | [], [] => false
  | [], _ :: _ => true
  | _ :: _, [] => false
  | a :: as, b :: bs =>
    if a.toNat < b.toNat then true
    else if b.toNat < a.toNat then false
    else strLt as bs

instance {e a : Type} [DecidableEq e] [DecidableEq a] : DecidableEq (Except e a) := fun x y =>
  match x, y with
  | Except.ok u, Except.ok v =>
    if h : u = v then isTrue (by rw [h]) else isFalse (by intro hc; cases hc; exact h rfl)
  | Except.error u, Except.error v =>
    if h : u = v then isTrue (by rw [h]) else isFalse (by intro hc; cases hc; exact h rfl)
  | Except.ok _, Except.error _ => isFalse (by intro hc; cases hc)
  | Except.error _, Except.ok _ => isFalse (by intro hc; cases hc)

theorem mem_setList {α : Type} [DecidableEq α] (a : α) : ∀ l : List α, a ∈ setList l ↔ a ∈ l := by
  intro l
  induction l with
  | nil => simp [setList]
  | cons b l ih =>
    simp only [setList, List.mem_cons, List.mem_filter, decide_eq_true_eq]
    by_cases h : a = b
    · simp [h]
    · simp [h, ih]

theorem nodup_setList {α : Type} [DecidableEq α] : ∀ l : List α, (setList l).Nodup := by
  intro l
  induction l with
  | nil => simp [setList]
  | cons b l ih =>
    simp only [setList, List.nodup_cons]
    refine ⟨fun hmem => ?_, ih.filter _⟩
    have := (List.mem_filter.mp hmem).2
    simp at this

instance : IsTotal Date dateLeP :=
  ⟨by intro a b; simp only [dateLeP, dateLe, decide_eq_true_eq]; omega⟩

instance : IsTrans Date dateLeP :=
  ⟨by intro a b c; simp only [dateLeP, dateLe, decide_eq_true_eq]; omega⟩

theorem sum_map_add_distrib {κ : Type} (l : List κ) (f g : κ → ℚ) :
    (l.map fun k => f k + g k).sum = (l.map f).sum + (l.map g).sum := by
  induction l with
  | nil => simp
  | cons a l ih => simp only [List.map_cons, List.sum_cons, ih]; ring

theorem sum_map_if_zero {κ : Type} [DecidableEq κ] (x : κ) (v : ℚ) (ks : List κ)
    (hx : x ∉ ks) : (ks.map fun k => if x = k then v else 0).sum = 0 := by
  induction ks with
  | nil => simp
  | cons b ks ih =>
    simp only [List.mem_cons, not_or] at hx
    simp [hx.1, ih hx.2]

theorem sum_map_if_single {κ : Type} [DecidableEq κ] (x : κ) (v : ℚ) (ks : List κ)
    (hN : ks.Nodup) (hx : x ∈ ks) : (ks.map fun k => if x = k then v else 0).sum = v := by
  induction ks with
  | nil => cases hx
  | cons b ks ih =>
    rcases List.mem_cons.mp hx with h | h
    · subst h
      have hnot := (List.nodup_cons.mp hN).1
      simp [sum_map_if_zero x v ks hnot]
    · have hb : x ≠ b := by
        rintro rfl
        exact (List.nodup_cons.mp hN).1 h
      simp [hb, ih (List.nodup_cons.mp hN).2 h]

theorem sum_by_keys {α κ : Type} [DecidableEq κ] (key : α → κ) (f : α → ℚ) (ks : List κ)
    (hN : ks.Nodup) :
    ∀ W : List α, (∀ a ∈ W, key a ∈ ks) →
      (ks.map fun k => ((W.filter fun a => decide (key a = k)).map f).sum).sum
        = (W.map f).sum := by
  intro W
  induction W with
  | nil => intro _; simp
  | cons a W ih =>
    intro hc
    have hmem : key a ∈ ks := hc a (List.mem_cons_self a W)
    have hW : ∀ b ∈ W, key b ∈ ks := fun b hb => hc b (List.mem_cons_of_mem a hb)
    have hpt : ∀ k ∈ ks,
        (((a :: W).filter fun x => decide (key x = k)).map f).sum
          = (if key a = k then f a else 0)
            + ((W.filter fun x => decide (key x = k)).map f).sum := by
      intro k _
      by_cases h : key a = k
      · simp [List.filter_cons, h]
      · simp [List.filter_cons, h]
    rw [List.map_congr_left hpt, sum_map_add_distrib,
      sum_map_if_single (key a) (f a) ks hN hmem, ih hW]
    simp

theorem nodup_workDaysOf (W : List WorkEvent) : (workDaysOf W).Nodup :=
  (List.perm_insertionSort dateLeP _).nodup_iff.mpr (nodup_setList _)

theorem mem_workDaysOf {W : List WorkEvent} {e : WorkEvent} (he : e ∈ W) :
    e.date ∈ workDaysOf W :=
  (List.perm_insertionSort dateLeP _).mem_iff.mpr
    ((mem_setList _ _).mpr (List.mem_map_of_mem _ he))

theorem nodup_projClassesOf (W : List WorkEvent) : (projClassesOf W).Nodup :=
  nodup_setList _

theorem mem_projClassesOf {W : List WorkEvent} {e : WorkEvent} (he : e ∈ W) :
    (e.project, e.cls) ∈ projClassesOf W :=
  (mem_setList _ _).mpr (List.mem_map_of_mem _ he)

theorem daily_sum_eq (W : List WorkEvent) :
    ((workDaysOf W).map fun d => daily_hours d W).sum = totalDur W := by
  have h := sum_by_keys (fun e : WorkEvent => e.date) (fun e => e.duration) (workDaysOf W)
    (nodup_workDaysOf W) W (fun _ ha => mem_workDaysOf ha)
  simpa [daily_hours, totalDur] using h

theorem proj_sum_eq (W : List WorkEvent) :
    ((projClassesOf W).map fun pc => proj_class_hours pc.1 pc.2 W).sum = totalDur W := by
  have hfil : ∀ pc : String × String,
      (W.filter fun e => decide (e.project = pc.1 ∧ e.cls = pc.2))
        = W.filter fun e => decide ((e.project, e.cls) = pc) := by
    intro pc
    apply List.filter_congr
    intro e _
    exact decide_eq_decide.mpr (by simp [Prod.ext_iff])
  have h := sum_by_keys (fun e : WorkEvent => (e.project, e.cls)) (fun e => e.duration)
    (projClassesOf W) (nodup_projClassesOf W) W (fun _ ha => mem_projClassesOf ha)
  have hrw : ∀ pc ∈ projClassesOf W,
      proj_class_hours pc.1 pc.2 W
        = ((W.filter fun a => decide ((a.project, a.cls) = pc)).map fun e => e.duration).sum := by
    intro pc _
    unfold proj_class_hours totalDur
    rw [hfil pc]
  rw [List.map_congr_left hrw]
  simpa [totalDur] using h

theorem mapME_append {α β : Type} (f : α → Except String β) (l₁ l₂ : List α) :
    mapME f (l₁ ++ l₂) =
      match mapME f l₁ with
      | Except.error e => Except.error e
      | Except.ok bs =>
        match mapME f l₂ with
        | Except.error e => Except.error e
        | Except.ok cs => Except.ok (bs ++ cs) := by
  induction l₁ with
  | nil =>
    simp only [List.nil_append, mapME]
    cases mapME f l₂ <;> rfl
  | cons a l ih =>
    simp only [List.cons_append, mapME, List.append_eq]
    rw [ih]
    cases f a with
    | error e => rfl
    | ok b =>
      cases mapME f l with
      | error e => rfl
      | ok bs =>
        cases mapME f l₂ with
        | error e => rfl
        | ok cs => rfl

theorem okB_mapME_false {α β : Type} (f : α → Except String β) {l : List α} {a : α}
    (ha : a ∈ l) (hf : okB (f a) = false) : okB (mapME f l) = false := by
  induction l with
  | nil => cases ha
  | cons b l ih =>
    rcases List.mem_cons.mp ha with h | h
    · subst h
      cases hfa : f a with
      | error e => simp [mapME, hfa, okB]
      | ok c => rw [hfa] at hf; simp [okB] at hf
    · cases hfb : f b with
      | error e => simp [mapME, hfb, okB]
      | ok c =>
        have hl := ih h
        cases hm : mapME f l with
        | error e => simp [mapME, hfb, hm, okB]
        | ok bs => rw [hm] at hl; simp [okB] at hl

theorem assembledReport_congr (name : String) (pp : PayPeriod) (pto : ℕ)
    {ev₁ ev₂ : List WorkEvent} (h : ev₁.filter (inPeriod pp) = ev₂.filter (inPeriod pp)) :
    assembledReport name pp ev₁ pto = assembledReport name pp ev₂ pto := by
  unfold assembledReport
  rw [h]

section
attribute [local semireducible] Rat.mul Rat.add Rat.sub Rat.inv

/-- Claim C1: the pay-period membership test admits an event iff its year and
month equal the period's and its day is at most 15 for half 1, or greater
than 15 for half 2 (under the period invariant `period ∈ {1, 2}`); hence no
admitted event of half 1 has day > 15 and none of half 2 has day ≤ 15. -/
theorem C1_period_membership (pp : PayPeriod) (e : WorkEvent)
    (h : pp.period = 1 ∨ pp.period = 2) :
    inPeriod pp e = true ↔
      (e.date.year = pp.year ∧ e.date.month = pp.month ∧
        ((pp.period = 1 ∧ e.date.day ≤ 15) ∨ (pp.period = 2 ∧ 15 < e.date.day))) := by
  unfold inPeriod
  split_ifs with h1 h2 <;> simp only [decide_eq_true_eq, Bool.false_eq_true, false_iff] <;>
    [skip; constructor; constructor] <;> omega

/-- Witness for C1 at a concrete period and event. -/
theorem C1_period_membership_witness :
    inPeriod ⟨2024, 1, 1⟩ ⟨⟨2024, 1, 5⟩, 8, "ProjA", "Dev"⟩ = true ↔
      ((2024 : ℕ) = 2024 ∧ (1 : ℕ) = 1 ∧
        (((1 : ℕ) = 1 ∧ (5 : ℕ) ≤ 15) ∨ ((1 : ℕ) = 2 ∧ 15 < (5 : ℕ)))) :=
  C1_period_membership ⟨2024, 1, 1⟩ ⟨⟨2024, 1, 5⟩, 8, "ProjA", "Dev"⟩ (Or.inl rfl)

/-- Claim C2: conservation of hours — the per-day totals of the daily table
and the per-pair totals of the project table each sum to the total duration
of the events admitted by the period filter, holidays excluded. -/
theorem C2_sum_conservation (pp : PayPeriod) (events : List WorkEvent) :
    ((workDaysOf (splitEvents (events.filter (inPeriod pp))).1).map
        fun d => daily_hours d (splitEvents (events.filter (inPeriod pp))).1).sum
      = totalDur (splitEvents (events.filter (inPeriod pp))).1
    ∧ ((projClassesOf (splitEvents (events.filter (inPeriod pp))).1).map
        fun pc => proj_class_hours pc.1 pc.2 (splitEvents (events.filter (inPeriod pp))).1).sum
      = totalDur (splitEvents (events.filter (inPeriod pp))).1 :=
  ⟨daily_sum_eq _, proj_sum_eq _⟩

/-- Claim C3: a row that passed the completeness check but has an invalid
ISO date in field 0 or a non-numeric field 3 makes event construction fail,
and the error propagates: the whole run yields no report; with valid date
and duration the construction succeeds. -/
theorem C3_parse_error_policy (row : List String) (hc : is_complete row = true) :
    (∀ name pp raw pto, row ∈ raw →
        (parseDate (row.getD 0 "") = none ∨ parseFloat (row.getD 3 "") = none) →
        okB (report name pp raw pto) = false)
    ∧ ((parseDate (row.getD 0 "")).isSome → (parseFloat (row.getD 3 "")).isSome →
        ∃ e, mkWorkEventE row = Except.ok e) := by
  constructor
  · intro name pp raw pto hmem hbad
    have hrowf : row ∈ raw.filter is_complete := List.mem_filter.mpr ⟨hmem, hc⟩
    have hev : okB (mkWorkEventE row) = false := by
      rcases hbad with h | h
      · simp only [mkWorkEventE, h, okB]
      · cases hd : parseDate (row.getD 0 "") <;> simp only [mkWorkEventE, hd, h, okB]
    have hall := okB_mapME_false mkWorkEventE hrowf hev
    unfold report
    cases hm : mapME mkWorkEventE (raw.filter is_complete) with
    | error e => simp [okB]
    | ok evs => rw [hm] at hall; simp [okB] at hall
  · intro h1 h2
    cases hd : parseDate (row.getD 0 "") with
    | none => rw [hd] at h1; simp at h1
    | some d =>
      cases hf : parseFloat (row.getD 3 "") with
      | none => rw [hf] at h2; simp at h2
      | some q =>
        exact ⟨⟨d, q, row.getD 4 "", row.getD 5 ""⟩, by simp only [mkWorkEventE, hd, hf]⟩

/-- Witness for C3: a complete row with month 13 aborts the whole run. -/
theorem C3_parse_error_policy_witness :
    okB (report "N" ⟨2024, 1, 1⟩ [["2024-13-01", "9:00", "17:00", "8", "ProjA", "Dev"]] 0)
      = false :=
  (C3_parse_error_policy ["2024-13-01", "9:00", "17:00", "8", "ProjA", "Dev"] (by decide)).1
    "N" ⟨2024, 1, 1⟩ [["2024-13-01", "9:00", "17:00", "8", "ProjA", "Dev"]] 0
    (List.mem_singleton.mpr rfl) (Or.inl (by decide))

/-- Claim C4: the validator accepts a row iff it has at least 6 cells and
the first 6 are nonempty; a rejected row is silently dropped — appending it
to the raw data leaves the whole report unchanged. -/
theorem C4_validator (row : List String) :
    (is_complete row = true ↔ (6 ≤ row.length ∧ ∀ f ∈ row.take 6, f ≠ ""))
    ∧ (is_complete row = false →
        ∀ name pp raw pto, report name pp (raw ++ [row]) pto = report name pp raw pto) := by
  constructor
  · simp [is_complete, List.all_eq_true]
  · intro h name pp raw pto
    unfold report
    rw [List.filter_append]
    simp [List.filter_cons, h]

/-- Witness for C4: appending a one-cell row changes nothing. -/
theorem C4_validator_witness :
    report "N" ⟨2024, 1, 1⟩ [["x"]] 0 = report "N" ⟨2024, 1, 1⟩ [] 0 :=
  (C4_validator ["x"]).2 (by decide) "N" ⟨2024, 1, 1⟩ [] 0

/-- Claim C5: an admitted holiday-labelled event goes only to the holiday
block: adding it changes neither the daily-table keys nor the project-table
keys, adds exactly 8 hours to the grand total regardless of its parsed
duration, and its formatted entry appears in the holiday block. -/
theorem C5_holiday_event (pp : PayPeriod) (events : List WorkEvent) (e : WorkEvent) (pto : ℕ)
    (hp : e.project = HOLIDAY_PROJECT) (hin : inPeriod pp e = true) :
    splitEvents ((events ++ [e]).filter (inPeriod pp))
      = ((splitEvents (events.filter (inPeriod pp))).1,
          (splitEvents (events.filter (inPeriod pp))).2 ++ [e])
    ∧ workDaysOf (splitEvents ((events ++ [e]).filter (inPeriod pp))).1
      = workDaysOf (splitEvents (events.filter (inPeriod pp))).1
    ∧ projClassesOf (splitEvents ((events ++ [e]).filter (inPeriod pp))).1
      = projClassesOf (splitEvents (events.filter (inPeriod pp))).1
    ∧ total_hoursOf (splitEvents ((events ++ [e]).filter (inPeriod pp))).1
          (splitEvents ((events ++ [e]).filter (inPeriod pp))).2 pto
      = total_hoursOf (splitEvents (events.filter (inPeriod pp))).1
          (splitEvents (events.filter (inPeriod pp))).2 pto + 8
    ∧ [fmtDate e.date, e.cls]
        ∈ _holiday_report (splitEvents ((events ++ [e]).filter (inPeriod pp))).2 := by
  have hA : (events ++ [e]).filter (inPeriod pp) = events.filter (inPeriod pp) ++ [e] := by
    rw [List.filter_append]
    simp [List.filter_cons, hin]
  have hsplit : splitEvents ((events ++ [e]).filter (inPeriod pp))
      = ((splitEvents (events.filter (inPeriod pp))).1,
          (splitEvents (events.filter (inPeriod pp))).2 ++ [e]) := by
    rw [hA]
    unfold splitEvents
    rw [List.filter_append, List.filter_append]
    simp [List.filter_cons, hp]
  refine ⟨hsplit, by rw [hsplit], by rw [hsplit], ?_, ?_⟩
  · rw [hsplit]
    unfold total_hoursOf
    simp only [List.length_append, List.length_cons, List.length_nil]
    push_cast
    ring
  · rw [hsplit]
    unfold _holiday_report
    have hne : ((splitEvents (events.filter (inPeriod pp))).2 ++ [e]).isEmpty = false := by
      simp
    rw [hne]
    simp only [Bool.false_eq_true, if_false, List.mem_append, List.mem_map]
    exact Or.inl (Or.inr ⟨e, by simp, rfl⟩)

/-- Witness for C5 at a concrete admitted holiday event. -/
theorem C5_holiday_event_witness :
    splitEvents ((([] : List WorkEvent)
          ++ [WorkEvent.mk (Date.mk 2024 1 3) 99 "Holiday" "NY"]).filter
        (inPeriod (PayPeriod.mk 2024 1 1)))
      = ((splitEvents (([] : List WorkEvent).filter (inPeriod (PayPeriod.mk 2024 1 1)))).1,
          (splitEvents (([] : List WorkEvent).filter (inPeriod (PayPeriod.mk 2024 1 1)))).2
            ++ [WorkEvent.mk (Date.mk 2024 1 3) 99 "Holiday" "NY"])
    ∧ workDaysOf (splitEvents ((([] : List WorkEvent)
          ++ [WorkEvent.mk (Date.mk 2024 1 3) 99 "Holiday" "NY"]).filter
        (inPeriod (PayPeriod.mk 2024 1 1)))).1
      = workDaysOf (splitEvents (([] : List WorkEvent).filter
          (inPeriod (PayPeriod.mk 2024 1 1)))).1
    ∧ projClassesOf (splitEvents ((([] : List WorkEvent)
          ++ [WorkEvent.mk (Date.mk 2024 1 3) 99 "Holiday" "NY"]).filter
        (inPeriod (PayPeriod.mk 2024 1 1)))).1
      = projClassesOf (splitEvents (([] : List WorkEvent).filter
          (inPeriod (PayPeriod.mk 2024 1 1)))).1
    ∧ total_hoursOf (splitEvents ((([] : List WorkEvent)
            ++ [WorkEvent.mk (Date.mk 2024 1 3) 99 "Holiday" "NY"]).filter
          (inPeriod (PayPeriod.mk 2024 1 1)))).1
          (splitEvents ((([] : List WorkEvent)
            ++ [WorkEvent.mk (Date.mk 2024 1 3) 99 "Holiday" "NY"]).filter
          (inPeriod (PayPeriod.mk 2024 1 1)))).2 0
      = total_hoursOf (splitEvents (([] : List WorkEvent).filter
            (inPeriod (PayPeriod.mk 2024 1 1)))).1
          (splitEvents (([] : List WorkEvent).filter
            (inPeriod (PayPeriod.mk 2024 1 1)))).2 0 + 8
    ∧ [fmtDate (Date.mk 2024 1 3), "NY"]
        ∈ _holiday_report (splitEvents ((([] : List WorkEvent)
            ++ [WorkEvent.mk (Date.mk 2024 1 3) 99 "Holiday" "NY"]).filter
          (inPeriod (PayPeriod.mk 2024 1 1)))).2 :=
  C5_holiday_event (PayPeriod.mk 2024 1 1) []
    (WorkEvent.mk (Date.mk 2024 1 3) 99 "Holiday" "NY") 0 rfl (by decide)

/-- Claim C6 counterexample: one admitted non-holiday event with duration
zero makes the percentage computation divide by zero, so the run fails
instead of following a safe policy. -/
theorem C6_zero_total_cex :
    okB (report "N" (PayPeriod.mk 2024 1 1)
        [["2024-01-05", "9:00", "17:00", "0", "ProjA", "Dev"]] 0) = false := by
  decide

/-- Claim C6 amended: with no admitted non-holiday events the project table
is empty and no division happens; with such events present but zero total
duration, the division by the zero total raises and the computation fails. -/
theorem C6_division_policy (W : List WorkEvent) :
    (W = [] → projectReportsOf W = Except.ok [])
    ∧ (W ≠ [] → totalDur W = 0 → okB (projectReportsOf W) = false) := by
  constructor
  · rintro rfl
    rfl
  · intro hne h0
    cases W with
    | nil => exact absurd rfl hne
    | cons e rest =>
      unfold projectReportsOf projClassesOf
      simp only [List.map_cons, setList, mapME]
      unfold _project_report
      rw [h0]
      simp [okB]

/-- Witness for C6 amended at a one-event list of duration zero. -/
theorem C6_division_policy_witness :
    okB (projectReportsOf [WorkEvent.mk (Date.mk 2024 1 5) 0 "ProjA" "Dev"]) = false :=
  (C6_division_policy [WorkEvent.mk (Date.mk 2024 1 5) 0 "ProjA" "Dev"]).2
    (by simp) (by decide)

/-- Claim C7 counterexample: events entered with projects "B" then "A" give
project-table keys in the order B, A even though "A" precedes "B"
lexicographically — the source applies no sort to `proj_classes`. -/
theorem C7_project_order_cex :
    projClassesOf (splitEvents
        ([WorkEvent.mk (Date.mk 2024 1 5) 1 "B" "x",
          WorkEvent.mk (Date.mk 2024 1 6) 1 "A" "x"].filter
          (inPeriod (PayPeriod.mk 2024 1 1)))).1
      = [("B", "x"), ("A", "x")]
    ∧ strLt "A".toList "B".toList = true := by
  constructor
  · decide
  · decide

/-- Claim C7 amended: the daily table keys are in strictly ascending
chronological order; the project table keys are the first-occurrence
enumeration of the distinct (project, class) pairs — each pair exactly once,
but in no sorted order. -/
theorem C7_row_ordering (pp : PayPeriod) (events : List WorkEvent) :
    (workDaysOf (splitEvents (events.filter (inPeriod pp))).1).Pairwise
        (fun a b => dateLeP a b ∧ a ≠ b)
    ∧ (projClassesOf (splitEvents (events.filter (inPeriod pp))).1).Nodup
    ∧ ∀ pc, pc ∈ projClassesOf (splitEvents (events.filter (inPeriod pp))).1 ↔
        pc ∈ (splitEvents (events.filter (inPeriod pp))).1.map fun e => (e.project, e.cls) := by
  refine ⟨?_, nodup_projClassesOf _, fun pc => mem_setList pc _⟩
  have hs : List.Sorted dateLeP (workDaysOf (splitEvents (events.filter (inPeriod pp))).1) :=
    List.sorted_insertionSort dateLeP _
  exact hs.and (nodup_workDaysOf _)

/-- Claim C8: with zero admitted events the report is headers, empty daily
and project tables, the PTO note, and a summary line totalling exactly the
PTO hours; the PTO note appears iff the PTO hours are positive. -/
theorem C8_pto_only (name : String) (pp : PayPeriod) (events : List WorkEvent) (pto : ℕ)
    (h : events.filter (inPeriod pp) = []) :
    assembledReport name pp events pto
      = Except.ok (headers name pp
          ++ [["Date", "Hours"], [],
              ["Project", "Class", "Hours", "% of total worked hours"], []]
          ++ _pto_report pto
          ++ [["Total: " ++ fmt2 (pto : ℚ) ++ " hours"]])
    ∧ (_pto_report pto ≠ [] ↔ 0 < pto) := by
  constructor
  · unfold assembledReport
    rw [h]
    have harg : total_hoursOf (splitEvents ([] : List WorkEvent)).1
        (splitEvents ([] : List WorkEvent)).2 pto = (pto : ℚ) := by
      unfold splitEvents total_hoursOf totalDur
      simp
    simp only [harg]
    rfl
  · unfold _pto_report
    split_ifs with h0
    · simp [h0]
    · have hpos := Nat.pos_of_ne_zero h0
      simp [hpos]

/-- Witness for C8 at PTO = 8 and no raw events, with the summary total
rendering as `8.00`. -/
theorem C8_pto_only_witness :
    (assembledReport "N" (PayPeriod.mk 2024 1 1) [] 8
        = Except.ok (headers "N" (PayPeriod.mk 2024 1 1)
            ++ [["Date", "Hours"], [],
                ["Project", "Class", "Hours", "% of total worked hours"], []]
            ++ _pto_report 8
            ++ [["Total: " ++ fmt2 ((8 : ℕ) : ℚ) ++ " hours"]])
      ∧ (_pto_report 8 ≠ [] ↔ 0 < 8))
    ∧ fmt2 ((8 : ℕ) : ℚ) = "8.00" :=
  ⟨C8_pto_only "N" (PayPeriod.mk 2024 1 1) [] 8 rfl, by decide⟩

/-- Claim C9 counterexample: a validator-accepted row whose duration cell is
"-2" constructs successfully and yields an event with negative duration, so
construction does not enforce `duration ≥ 0`. -/
theorem C9_negative_duration_cex :
    is_complete ["2024-01-05", "9:00", "17:00", "-2", "ProjA", "Dev"] = true
    ∧ mkWorkEventE ["2024-01-05", "9:00", "17:00", "-2", "ProjA", "Dev"]
        = Except.ok (WorkEvent.mk (Date.mk 2024 1 5) (-2) "ProjA" "Dev")
    ∧ ¬(0 ≤ (-2 : ℚ)) := by
  refine ⟨by decide, by decide, by norm_num⟩

/-- Claim C9 amended: every successfully constructed event has a valid
calendar date; the parsed duration is unconstrained in sign. -/
theorem C9_event_invariant (row : List String) (e : WorkEvent)
    (h : mkWorkEventE row = Except.ok e) : validDate e.date := by
  unfold mkWorkEventE at h
  cases hd : parseDate (row.getD 0 "") with
  | none => rw [hd] at h; cases h
  | some d =>
    rw [hd] at h
    cases hf : parseFloat (row.getD 3 "") with
    | none => rw [hf] at h; cases h
    | some q =>
      rw [hf] at h
      cases h
      unfold parseDate at hd
      split at hd
      · split_ifs at hd with h1
        cases hd
        exact h1.2.2.2
      · cases hd

/-- Witness for C9 amended at a concrete parsed row. -/
theorem C9_event_invariant_witness :
    validDate (Date.mk 2024 1 5) :=
  C9_event_invariant ["2024-01-05", "9:00", "17:00", "8", "ProjA", "Dev"]
    (WorkEvent.mk (Date.mk 2024 1 5) 8 "ProjA" "Dev") (by decide)

/-- Claim C10: the period filter runs before the holiday split — a
holiday-labelled row whose date is outside the pay period contributes
nothing at all: appending it leaves the entire report unchanged. -/
theorem C10_out_of_period_holiday (name : String) (pp : PayPeriod) (raw : List (List String))
    (pto : ℕ) (row : List String) (e : WorkEvent)
    (h1 : mkWorkEventE row = Except.ok e) (_h2 : e.project = HOLIDAY_PROJECT)
    (h3 : inPeriod pp e = false) :
    report name pp (raw ++ [row]) pto = report name pp raw pto := by
  unfold report
  rw [List.filter_append]
  cases hc : is_complete row with
  | false => simp [List.filter_cons, hc]
  | true =>
    have hfil : List.filter is_complete [row] = [row] := by
      simp [List.filter_cons, hc]
    rw [hfil, mapME_append]
    cases hm : mapME mkWorkEventE (raw.filter is_complete) with
    | error e0 => rfl
    | ok evs =>
      have hrow : mapME mkWorkEventE [row] = Except.ok [e] := by
        simp only [mapME, h1]
      rw [hrow]
      apply assembledReport_congr
      rw [List.filter_append]
      simp [List.filter_cons, h3]

/-- Witness for C10: an out-of-period holiday row appended to a one-row data
set leaves the report unchanged. -/
theorem C10_out_of_period_holiday_witness :
    report "N" (PayPeriod.mk 2024 2 1)
        ([["2024-02-03", "9:00", "17:00", "8", "ProjA", "Dev"]]
          ++ [["2024-02-20", "9:00", "17:00", "8", "Holiday", "x"]]) 0
      = report "N" (PayPeriod.mk 2024 2 1)
          [["2024-02-03", "9:00", "17:00", "8", "ProjA", "Dev"]] 0 :=
  C10_out_of_period_holiday "N" (PayPeriod.mk 2024 2 1)
    [["2024-02-03", "9:00", "17:00", "8", "ProjA", "Dev"]] 0
    ["2024-02-20", "9:00", "17:00", "8", "Holiday", "x"]
    (WorkEvent.mk (Date.mk 2024 2 20) 8 "Holiday" "x") (by decide) rfl (by decide)

end

end Timesheet
